import Mathlib

/-!
Verification of the CHIP-8 emulator core (`src/chip8_core/src/lib.rs`).

The Rust core is a single mutable `Emulator` struct with methods that either
return normally or panic (the source contains no `Result` type: stack
overflow/underflow and out-of-range memory accesses abort through Rust's
index / arithmetic-overflow panics, and unknown opcodes abort through
`unimplemented!`).  The embedding below renders every fallible method as an
`Except EmuPanic _` value where the `.error` constructor models a Rust panic:
the process aborts and no value is returned to the caller.  Machine integers
(`u8`, `u16`) are embedded as `Nat`; wherever the Rust code wraps
(`wrapping_add`) the embedding takes an explicit `% 256`.  Fixed-size Rust
arrays (`[u8; 4096]`, `[u8; 16]`, `[u16; 16]`, `[bool; N]`) are embedded as
lists; their statically-known lengths become explicit hypotheses of the
theorems that need them.
-/

set_option maxRecDepth 20000

namespace Chip8

def SCREEN_WIDTH : Nat := 64

def SCREEN_HEIGHT : Nat := 32

def FONTSET_SIZE : Nat := 80

/-- The 80-byte font bitmap `FONTSET` from the source, one 5-byte glyph per
hexadecimal digit. -/
def FONTSET : List Nat :=
  [0xF0, 0x90, 0x90, 0x90, 0xF0,
   0x20, 0x60, 0x20, 0x20, 0x70,
   0xF0, 0x10, 0xF0, 0x80, 0xF0,
   0xF0, 0x10, 0xF0, 0x10, 0xF0,
   0x90, 0x90, 0xF0, 0x10, 0x10,
   0xF0, 0x80, 0xF0, 0x10, 0xF0,
   0xF0, 0x80, 0xF0, 0x90, 0xF0,
   0xF0, 0x10, 0x20, 0x40, 0x40,
   0xF0, 0x90, 0xF0, 0x90, 0xF0,
   0xF0, 0x90, 0xF0, 0x10, 0xF0,
   0xF0, 0x90, 0xF0, 0x90, 0x90,
   0xE0, 0x90, 0xE0, 0x90, 0xE0,
   0xF0, 0x80, 0x80, 0x80, 0xF0,
   0xE0, 0x90, 0x90, 0x90, 0xE0,
   0xF0, 0x80, 0xF0, 0x80, 0xF0,
   0xF0, 0x80, 0xF0, 0x80, 0x80]

def RAM_SIZE : Nat := 4096

def NUM_REGS : Nat := 16

def STACK_SIZE : Nat := 16

def NUM_KEYS : Nat := 16

def START_ADDR : Nat := 0x200

/-- The ways the Rust core can panic (abort the process).  A `.error` carrying
one of these models the corresponding Rust panic; it is a fatal outcome, not a
value handed back to the caller.

* `ramIndexOutOfBounds idx`: `self.ram[idx]` with `idx ≥ 4096` (slice index panic);
* `stackIndexOutOfBounds idx`: `self.stack[idx]` with `idx ≥ 16` (slice index
  panic; this is how a call with a full stack dies — the stack-overflow condition);
* `subOverflow`: `self.stack_pointer -= 1` with the pointer already `0`
  (debug-mode `u16` subtraction overflow panic; this is how a return with an
  empty stack dies — the stack-underflow condition);
* `vRegOutOfRange idx`: the explicit `panic!` inside `set_v_reg`/`get_v_reg`
  when the register index exceeds 15;
* `unimplementedOpcode w`: the `unimplemented!` arm of `execute_opcode`,
  carrying the raw 16-bit instruction word exactly as the Rust panic message does. -/
inductive EmuPanic where
  | ramIndexOutOfBounds (idx : Nat)
  | stackIndexOutOfBounds (idx : Nat)
  | subOverflow
  | vRegOutOfRange (idx : Nat)
  | unimplementedOpcode (opcode : Nat)
deriving DecidableEq

/-- The `Emulator` struct.  Field names and order follow the Rust struct. -/
structure Emulator where
  program_counter : Nat
  ram : List Nat
  screen : List Bool
  v_reg : List Nat
  i_reg : Nat
  stack_pointer : Nat
  stack : List Nat
  keys : List Bool
  delay_timer : Nat
  sound_timer : Nat
deriving DecidableEq

/-- Models `emu.ram[..FONTSET_SIZE].copy_from_slice(&FONTSET)`: overwrite the
first `FONTSET_SIZE` bytes of `ram` with the font. -/
def copyFontsetInto (ram : List Nat) : List Nat :=
  FONTSET ++ ram.drop FONTSET_SIZE

/-- `Emulator::new()`. -/
def Emulator.new : Emulator :=
  { program_counter := START_ADDR
    ram := copyFontsetInto (List.replicate RAM_SIZE 0)
    screen := List.replicate (SCREEN_WIDTH * SCREEN_HEIGHT) false
    v_reg := List.replicate NUM_REGS 0
    i_reg := 0
    stack_pointer := 0
    stack := List.replicate STACK_SIZE 0
    keys := List.replicate NUM_KEYS false
    delay_timer := 0
    sound_timer := 0 }

/-- `Emulator::set_v_reg`: explicit `panic!` when the index exceeds 15,
otherwise write the register.  (`self.v_reg[v_reg] = value`; the guarded index
is within the `[u8; 16]` array, so the write is embedded as `List.set`.) -/
def Emulator.set_v_reg (e : Emulator) (v_reg : Nat) (value : Nat) : Except EmuPanic Emulator :=
  if v_reg > 15 then .error (.vRegOutOfRange v_reg)
  else .ok { e with v_reg := e.v_reg.set v_reg value }

/-- `Emulator::get_v_reg`: explicit `panic!` when the index exceeds 15,
otherwise read the register.  The guarded index is within the `[u8; 16]`
array's static bounds, so the read is embedded as a total `getD`. -/
def Emulator.get_v_reg (e : Emulator) (v_reg : Nat) : Except EmuPanic Nat :=
  if v_reg > 15 then .error (.vRegOutOfRange v_reg)
  else .ok (e.v_reg.getD v_reg 0)

/-- `Emulator::clear_screen`: set all pixels to `false`. -/
def Emulator.clear_screen (e : Emulator) : Emulator :=
  { e with screen := List.replicate (SCREEN_WIDTH * SCREEN_HEIGHT) false }

/-- `Emulator::push`: `self.stack[self.stack_pointer] = value` panics when the
pointer is at or beyond the static array length 16 (`STACK_SIZE`); otherwise
the slot is written and the pointer incremented.  (The `u16` increment cannot
overflow here: the pointer was below 16.) -/
def Emulator.push (e : Emulator) (value : Nat) : Except EmuPanic Emulator :=
  if e.stack_pointer < STACK_SIZE then
    .ok { e with
            stack := e.stack.set e.stack_pointer value
            stack_pointer := e.stack_pointer + 1 }
  else .error (.stackIndexOutOfBounds e.stack_pointer)

/-- `Emulator::pop`: `self.stack_pointer -= 1` panics (debug-mode `u16`
subtraction overflow) when the pointer is `0`; afterwards
`self.stack[self.stack_pointer]` panics if the decremented pointer is still at
or beyond the static array length 16.  Otherwise the slot is read. -/
def Emulator.pop (e : Emulator) : Except EmuPanic (Nat × Emulator) :=
  if e.stack_pointer = 0 then .error .subOverflow
  else if e.stack_pointer - 1 < STACK_SIZE then
    .ok (e.stack.getD (e.stack_pointer - 1) 0, { e with stack_pointer := e.stack_pointer - 1 })
  else .error (.stackIndexOutOfBounds (e.stack_pointer - 1))

/-- `Emulator::reset`: reassign every field to its initial value, then reload
the font (`self.ram[..FONTSET_SIZE].copy_from_slice(&FONTSET)`). -/
def Emulator.reset (e : Emulator) : Emulator :=
  { e with
      program_counter := START_ADDR
      ram := copyFontsetInto (List.replicate RAM_SIZE 0)
      screen := List.replicate (SCREEN_WIDTH * SCREEN_HEIGHT) false
      v_reg := List.replicate NUM_REGS 0
      i_reg := 0
      stack_pointer := 0
      stack := List.replicate STACK_SIZE 0
      keys := List.replicate NUM_KEYS false
      delay_timer := 0
      sound_timer := 0 }

/-- `Emulator::fetch_opcode`: read `self.ram[pc]` (panics when `pc ≥ 4096`),
then `self.ram[pc + 1]` (panics when `pc + 1 ≥ 4096`), combine them
big-endian as `(higher_byte << 8) | lower_byte`, and advance the program
counter by 2.  (The `u16` additions cannot overflow on the reachable path:
both reads succeeded, so `pc ≤ 4094`.) -/
def Emulator.fetch_opcode (e : Emulator) : Except EmuPanic (Nat × Emulator) :=
  match e.ram[e.program_counter]? with
  | none => .error (.ramIndexOutOfBounds e.program_counter)
  | some higher_byte =>
    match e.ram[e.program_counter + 1]? with
    | none => .error (.ramIndexOutOfBounds (e.program_counter + 1))
    | some lower_byte =>
      .ok ((higher_byte <<< 8) ||| lower_byte,
           { e with program_counter := e.program_counter + 2 })

/-- `Emulator::execute_opcode`.  The four nibbles are extracted exactly as in
the source (`(opcode & 0xF000) >> 12` and so on), and the Rust `match` on the
nibble 4-tuple becomes an if-chain testing the same patterns in the same
order.  Arms that index `self.v_reg[x]` directly (skip instructions) use a
total `getD`: the index is a nibble, hence within the `[u8; 16]` array's
static bounds.  The final Rust arm is `unimplemented!`, a panic carrying the
offending word. -/
def Emulator.execute_opcode (e : Emulator) (opcode : Nat) : Except EmuPanic Emulator :=
  let digit1 := (opcode &&& 0xF000) >>> 12
  let digit2 := (opcode &&& 0x0F00) >>> 8
  let digit3 := (opcode &&& 0x00F0) >>> 4
  let digit4 := opcode &&& 0x000F
  if digit1 = 0 ∧ digit2 = 0 ∧ digit3 = 0 ∧ digit4 = 0 then
    .ok e
  else if digit1 = 0 ∧ digit2 = 0 ∧ digit3 = 0xE ∧ digit4 = 0 then
    .ok e.clear_screen
  else if digit1 = 0 ∧ digit2 = 0 ∧ digit3 = 0xE ∧ digit4 = 0xE then
    match e.pop with
    | .error p => .error p
    | .ok pr => .ok { pr.2 with program_counter := pr.1 }
  else if digit1 = 1 then
    .ok { e with program_counter := opcode &&& 0xFFF }
  else if digit1 = 2 then
    match e.push e.program_counter with
    | .error p => .error p
    | .ok e1 => .ok { e1 with program_counter := opcode &&& 0xFFF }
  else if digit1 = 3 then
    if e.v_reg.getD digit2 0 = opcode &&& 0xFF then
      .ok { e with program_counter := e.program_counter + 2 }
    else .ok e
  else if digit1 = 4 then
    if e.v_reg.getD digit2 0 ≠ opcode &&& 0xFF then
      .ok { e with program_counter := e.program_counter + 2 }
    else .ok e
  else if digit1 = 5 ∧ digit4 = 0 then
    if e.v_reg.getD digit2 0 = e.v_reg.getD digit3 0 then
      .ok { e with program_counter := e.program_counter + 2 }
    else .ok e
  else if digit1 = 6 then
    e.set_v_reg digit2 (opcode &&& 0xFF)
  else if digit1 = 7 then
    match e.get_v_reg digit2 with
    | .error p => .error p
    | .ok vx => e.set_v_reg digit2 ((vx + (opcode &&& 0xFF)) % 256)
  else if digit1 = 8 ∧ digit4 = 0 then
    match e.get_v_reg digit3 with
    | .error p => .error p
    | .ok vy => e.set_v_reg digit2 vy
  else
    .error (.unimplementedOpcode opcode)

/-- `Emulator::tick`: fetch, then execute (on the state the fetch advanced). -/
def Emulator.tick (e : Emulator) : Except EmuPanic Emulator :=
  match e.fetch_opcode with
  | .error p => .error p
  | .ok pr => pr.2.execute_opcode pr.1

/-- `Emulator::tick_timers`.  The returned boolean records whether the tone
side effect (the `println!` in the `1` arm) was emitted during the call. -/
def Emulator.tick_timers (e : Emulator) : Emulator × Bool :=
  let e1 := if e.delay_timer > 0 then { e with delay_timer := e.delay_timer - 1 } else e
  if e1.sound_timer = 0 then (e1, false)
  else if e1.sound_timer = 1 then (e1, true)
  else ({ e1 with sound_timer := e1.sound_timer - 1 }, false)

/-- Executes a list of instruction words in sequence, stopping at the first
panic.  Used to express runs of consecutive instructions. -/
def runOpcodes (e : Emulator) (ws : List Nat) : Except EmuPanic Emulator :=
  match ws with
  | [] => .ok e
  | w :: rest =>
    match e.execute_opcode w with
    | .error p => .error p
    | .ok e1 => runOpcodes e1 rest

/-- The dispatch conditions of `execute_opcode`'s defined arms, verbatim: an
instruction word is dispatched to a real arm exactly when one of these nibble
patterns holds. -/
def matchesDispatch (opcode : Nat) : Prop :=
  let digit1 := (opcode &&& 0xF000) >>> 12
  let digit2 := (opcode &&& 0x0F00) >>> 8
  let digit3 := (opcode &&& 0x00F0) >>> 4
  let digit4 := opcode &&& 0x000F
  (digit1 = 0 ∧ digit2 = 0 ∧ digit3 = 0 ∧ digit4 = 0) ∨
  (digit1 = 0 ∧ digit2 = 0 ∧ digit3 = 0xE ∧ digit4 = 0) ∨
  (digit1 = 0 ∧ digit2 = 0 ∧ digit3 = 0xE ∧ digit4 = 0xE) ∨
  digit1 = 1 ∨ digit1 = 2 ∨ digit1 = 3 ∨ digit1 = 4 ∨
  (digit1 = 5 ∧ digit4 = 0) ∨ digit1 = 6 ∨ digit1 = 7 ∨
  (digit1 = 8 ∧ digit4 = 0)

instance (opcode : Nat) : Decidable (matchesDispatch opcode) := by
  unfold matchesDispatch
  exact inferInstance

/-! Arithmetic bridge lemmas: the bitwise nibble/byte extractions of the
source are plain division/remainder facts. -/

theorem nibble_shift_mask (x k : Nat) : (x &&& (15 <<< k)) >>> k = x / 2 ^ k % 16 := by
  apply Nat.eq_of_testBit_eq
  intro j
  have h16 : (16 : Nat) = 2 ^ 4 := by norm_num
  have h15 : (15 : Nat) = 2 ^ 4 - 1 := by norm_num
  have ht : ∀ i : Nat, Nat.testBit 15 i = decide (i < 4) := by
    intro i
    rw [h15, Nat.testBit_two_pow_sub_one]
  have hmod : ∀ y i : Nat, Nat.testBit (y % 16) i = (decide (i < 4) && Nat.testBit y i) := by
    intro y i
    rw [h16, Nat.testBit_mod_two_pow]
  rw [← Nat.shiftRight_eq_div_pow]
  simp [ht, hmod, Nat.le_add_right, Bool.and_comm]

theorem digit1_eq (x : Nat) : (x &&& 0xF000) >>> 12 = x / 4096 % 16 := by
  have h : (0xF000 : Nat) = 15 <<< 12 := by norm_num [Nat.shiftLeft_eq]
  rw [h, nibble_shift_mask]
  norm_num

theorem digit2_eq (x : Nat) : (x &&& 0x0F00) >>> 8 = x / 256 % 16 := by
  have h : (0x0F00 : Nat) = 15 <<< 8 := by norm_num [Nat.shiftLeft_eq]
  rw [h, nibble_shift_mask]
  norm_num

theorem digit3_eq (x : Nat) : (x &&& 0x00F0) >>> 4 = x / 16 % 16 := by
  have h : (0x00F0 : Nat) = 15 <<< 4 := by norm_num [Nat.shiftLeft_eq]
  rw [h, nibble_shift_mask]
  norm_num

theorem digit4_eq (x : Nat) : x &&& 0x000F = x % 16 := by
  have h : (0x000F : Nat) = 2 ^ 4 - 1 := by norm_num
  rw [h, Nat.and_pow_two_sub_one_eq_mod]

theorem mask_fff_eq (x : Nat) : x &&& 0xFFF = x % 4096 := by
  have h : (0xFFF : Nat) = 2 ^ 12 - 1 := by norm_num
  rw [h, Nat.and_pow_two_sub_one_eq_mod]

theorem mask_ff_eq (x : Nat) : x &&& 0xFF = x % 256 := by
  have h : (0xFF : Nat) = 2 ^ 8 - 1 := by norm_num
  rw [h, Nat.and_pow_two_sub_one_eq_mod]

theorem byte_combine (h l : Nat) (hl : l < 256) : (h <<< 8) ||| l = h * 256 + l := by
  have e1 : (2 : Nat) ^ 8 = 256 := by norm_num
  have hl2 : l < 2 ^ 8 := e1.symm ▸ hl
  have hmain := Nat.mul_add_lt_is_or hl2 h
  rw [e1] at hmain
  rw [Nat.shiftLeft_eq, e1, Nat.mul_comm h 256]
  exact hmain.symm

/-! Reduction lemmas for the individual dispatch arms of `execute_opcode` and
for `fetch_opcode`. -/

theorem execute_call_ok (e : Emulator) (w : Nat) (hw : w / 4096 % 16 = 2)
    (hsp : e.stack_pointer < 16) :
    e.execute_opcode w = .ok { e with
      stack := e.stack.set e.stack_pointer e.program_counter
      stack_pointer := e.stack_pointer + 1
      program_counter := w % 4096 } := by
  simp only [Emulator.execute_opcode, Emulator.push, STACK_SIZE,
    digit1_eq, digit2_eq, digit3_eq, digit4_eq, mask_fff_eq, mask_ff_eq, hw]
  norm_num [hsp]

theorem execute_call_overflow (e : Emulator) (w : Nat) (hw : w / 4096 % 16 = 2)
    (hsp : ¬ e.stack_pointer < 16) :
    e.execute_opcode w = .error (.stackIndexOutOfBounds e.stack_pointer) := by
  simp only [Emulator.execute_opcode, Emulator.push, STACK_SIZE,
    digit1_eq, digit2_eq, digit3_eq, digit4_eq, mask_fff_eq, mask_ff_eq, hw]
  norm_num [hsp]

theorem execute_ret_ok (e : Emulator) (hsp0 : ¬ e.stack_pointer = 0)
    (hsp : e.stack_pointer - 1 < 16) :
    e.execute_opcode 0x00EE = .ok { e with
      stack_pointer := e.stack_pointer - 1
      program_counter := e.stack.getD (e.stack_pointer - 1) 0 } := by
  simp only [Emulator.execute_opcode, Emulator.pop, STACK_SIZE,
    digit1_eq, digit2_eq, digit3_eq, digit4_eq, mask_fff_eq, mask_ff_eq]
  norm_num [hsp0, hsp]

theorem execute_ret_underflow (e : Emulator) (hsp0 : e.stack_pointer = 0) :
    e.execute_opcode 0x00EE = .error .subOverflow := by
  simp only [Emulator.execute_opcode, Emulator.pop, STACK_SIZE,
    digit1_eq, digit2_eq, digit3_eq, digit4_eq, mask_fff_eq, mask_ff_eq]
  norm_num [hsp0]

theorem execute_unmatched (e : Emulator) (w : Nat) (hw : ¬ matchesDispatch w) :
    e.execute_opcode w = .error (.unimplementedOpcode w) := by
  unfold matchesDispatch at hw
  simp only [not_or] at hw
  obtain ⟨h1, h2, h3, h4, h5, h6, h7, h8, h9, h10, h11⟩ := hw
  simp only [Emulator.execute_opcode]
  rw [if_neg h1, if_neg h2, if_neg h3, if_neg h4, if_neg h5, if_neg h6, if_neg h7,
    if_neg h8, if_neg h9, if_neg h10, if_neg h11]

theorem fetch_ok (e : Emulator) (hlen : e.ram.length = 4096)
    (hpc : e.program_counter ≤ 4094) :
    e.fetch_opcode = .ok
      ((e.ram.getD e.program_counter 0) <<< 8 ||| e.ram.getD (e.program_counter + 1) 0,
       { e with program_counter := e.program_counter + 2 }) := by
  have h1 : e.program_counter < e.ram.length := by omega
  have h2 : e.program_counter + 1 < e.ram.length := by omega
  simp only [Emulator.fetch_opcode, List.getElem?_eq_getElem h1, List.getElem?_eq_getElem h2]
  simp [List.getD_eq_getElem?_getD, List.getElem?_eq_getElem, h1, h2]

/-! Facts about the initial state's RAM, used to discharge the
well-formedness hypotheses at concrete states. -/

theorem FONTSET_length : FONTSET.length = 80 := rfl

theorem new_ram_eq : Emulator.new.ram = FONTSET ++ List.replicate 4016 0 := rfl

theorem new_ram_length : Emulator.new.ram.length = 4096 := by
  rw [new_ram_eq, List.length_append, FONTSET_length, List.length_replicate]

theorem new_ram_bytes : ∀ b ∈ Emulator.new.ram, b < 256 := by
  intro b hb
  rw [new_ram_eq] at hb
  rcases List.mem_append.1 hb with h | h
  · simp [FONTSET] at h
    omega
  · have h2 := List.eq_of_mem_replicate h
    omega

/-! Claim theorems. -/

/-- C1 (code evaluation at the failing input): with the sound timer equal to 1,
`tick_timers()` emits the tone but leaves the sound timer at 1 — not at 0 as
claimed — and the immediately following `tick_timers()` call emits the tone
again.  The `1` arm of the Rust `match` prints and never decrements. -/
theorem tick_timers_sound_expiry_bug :
    ({ Emulator.new with sound_timer := 1 } : Emulator).tick_timers.2 = true ∧
    ({ Emulator.new with sound_timer := 1 } : Emulator).tick_timers.1.sound_timer = 1 ∧
    ({ Emulator.new with sound_timer := 1 } : Emulator).tick_timers.1.tick_timers.2 = true :=
  ⟨rfl, rfl, rfl⟩

/-- C3: whenever the program counter exceeds 4094 at fetch time (with the
4096-byte RAM of the Rust type), the fetch fails with the out-of-bounds RAM
access panic — the memory-out-of-bounds condition — at an address at least
4096, and with no other outcome. -/
theorem fetch_oob_memory_error (e : Emulator) (hlen : e.ram.length = 4096)
    (hpc : 4094 < e.program_counter) :
    e.fetch_opcode = .error (.ramIndexOutOfBounds
      (if e.program_counter = 4095 then e.program_counter + 1 else e.program_counter)) ∧
    4096 ≤ (if e.program_counter = 4095 then e.program_counter + 1 else e.program_counter) := by
  by_cases h : e.program_counter = 4095
  · have h1 : e.program_counter < e.ram.length := by omega
    have h2 : e.ram.length ≤ e.program_counter + 1 := by omega
    rw [if_pos h]
    refine ⟨?_, by omega⟩
    simp only [Emulator.fetch_opcode, List.getElem?_eq_getElem h1,
      List.getElem?_eq_none h2]
  · have h2 : e.ram.length ≤ e.program_counter := by omega
    rw [if_neg h]
    refine ⟨?_, by omega⟩
    simp only [Emulator.fetch_opcode, List.getElem?_eq_none h2]

/-- C3 witness: a concrete state (fresh emulator with the program counter moved
to 5000) on which the fetch fails with the RAM out-of-bounds panic. -/
theorem fetch_oob_memory_error_witness :
    ({ Emulator.new with program_counter := 5000 } : Emulator).fetch_opcode =
      .error (.ramIndexOutOfBounds 5000) :=
  (fetch_oob_memory_error { Emulator.new with program_counter := 5000 }
    new_ram_length (by decide)).1

/-- C6: with the program counter at most 4094 (and the 4096-byte RAM of the
Rust type, whose cells are bytes), the fetch reads the bytes at `pc` and
`pc + 1`, returns the big-endian word `ram[pc] * 256 + ram[pc + 1]`, and
advances the program counter by exactly 2; moreover a `tick()` hands the
executed instruction that already-advanced state. -/
theorem fetch_bigendian_and_advance (e : Emulator) (hlen : e.ram.length = 4096)
    (hbytes : ∀ b ∈ e.ram, b < 256) (hpc : e.program_counter ≤ 4094) :
    e.fetch_opcode = .ok
      (e.ram.getD e.program_counter 0 * 256 + e.ram.getD (e.program_counter + 1) 0,
       { e with program_counter := e.program_counter + 2 }) ∧
    e.tick = Emulator.execute_opcode { e with program_counter := e.program_counter + 2 }
      (e.ram.getD e.program_counter 0 * 256 + e.ram.getD (e.program_counter + 1) 0) := by
  have h2 : e.program_counter + 1 < e.ram.length := by omega
  have hb : e.ram.getD (e.program_counter + 1) 0 < 256 := by
    apply hbytes
    rw [List.getD_eq_getElem?_getD, List.getElem?_eq_getElem h2]
    exact List.getElem_mem h2
  have hfetch := fetch_ok e hlen hpc
  rw [byte_combine _ _ hb] at hfetch
  refine ⟨hfetch, ?_⟩
  unfold Emulator.tick
  rw [hfetch]

/-- C6 witness: the fetch contract evaluated on the fresh emulator
(program counter 0x200, both fetched bytes 0). -/
theorem fetch_bigendian_and_advance_witness :
    Emulator.new.fetch_opcode =
      .ok (Emulator.new.ram.getD 0x200 0 * 256 + Emulator.new.ram.getD 0x201 0,
           { Emulator.new with program_counter := 0x202 }) :=
  (fetch_bigendian_and_advance Emulator.new new_ram_length new_ram_bytes (by decide)).1

/-- C9: `reset()` produces exactly the state of `new()`: the 80 font bytes at
addresses 0x000–0x04F, program counter 0x200, and every other component
zero/false. -/
theorem reset_eq_new (e : Emulator) :
    e.reset = Emulator.new ∧
    Emulator.new.program_counter = 0x200 ∧
    (∀ i, i < 80 → Emulator.new.ram.getD i 0 = FONTSET.getD i 0) ∧
    (∀ i, i < 4096 → 80 ≤ i → Emulator.new.ram.getD i 0 = 0) ∧
    Emulator.new.ram.length = 4096 ∧
    Emulator.new.v_reg = List.replicate 16 0 ∧
    Emulator.new.i_reg = 0 ∧
    Emulator.new.stack = List.replicate 16 0 ∧
    Emulator.new.stack_pointer = 0 ∧
    Emulator.new.screen = List.replicate 2048 false ∧
    Emulator.new.keys = List.replicate 16 false ∧
    Emulator.new.delay_timer = 0 ∧
    Emulator.new.sound_timer = 0 := by
  refine ⟨rfl, rfl, ?_, ?_, new_ram_length, rfl, rfl, rfl, rfl, rfl, rfl, rfl, rfl⟩
  · intro i hi
    have h80 : i < FONTSET.length := by rw [FONTSET_length]; omega
    rw [new_ram_eq, List.getD_eq_getElem?_getD, List.getD_eq_getElem?_getD,
      List.getElem?_append_left h80]
  · intro i h4096 h80
    have hr : FONTSET.length ≤ i := by rw [FONTSET_length]; omega
    rw [new_ram_eq, List.getD_eq_getElem?_getD, List.getElem?_append_right hr,
      FONTSET_length, List.getElem?_replicate_of_lt (by omega)]
    rfl

/-- C10: `tick_timers()` mutates at most the two timers: memory, registers,
the I register, the program counter, the stack, the stack pointer, the display
and the key states are unchanged; the delay timer is decremented by exactly 1
when nonzero and left at 0 when zero. -/
theorem tick_timers_frame (e : Emulator) :
    e.tick_timers.1.ram = e.ram ∧
    e.tick_timers.1.v_reg = e.v_reg ∧
    e.tick_timers.1.i_reg = e.i_reg ∧
    e.tick_timers.1.program_counter = e.program_counter ∧
    e.tick_timers.1.stack = e.stack ∧
    e.tick_timers.1.stack_pointer = e.stack_pointer ∧
    e.tick_timers.1.screen = e.screen ∧
    e.tick_timers.1.keys = e.keys ∧
    (0 < e.delay_timer → e.tick_timers.1.delay_timer = e.delay_timer - 1) ∧
    (e.delay_timer = 0 → e.tick_timers.1.delay_timer = 0) := by
  obtain ⟨pc, ram, scr, vr, ir, sp, st, k, dt, snd⟩ := e
  by_cases hd : dt > 0 <;> by_cases h0 : snd = 0 <;> by_cases h1 : snd = 1 <;>
    simp_all [Emulator.tick_timers]

/-- C10 witness: the frame condition evaluated on the fresh emulator with the
delay timer set to 5 (it drops to 4, everything else untouched). -/
theorem tick_timers_frame_witness :
    ({ Emulator.new with delay_timer := 5 } : Emulator).tick_timers.1.delay_timer = 4 := by
  have h := tick_timers_frame { Emulator.new with delay_timer := 5 }
  exact h.2.2.2.2.2.2.2.2.1 (by decide)

/-- A run of CALL instructions from a state with enough free stack slots
succeeds and raises the stack pointer by the number of calls. -/
theorem runOpcodes_calls (ws : List Nat) :
    ∀ e : Emulator, (∀ w ∈ ws, w / 4096 % 16 = 2) → e.stack_pointer + ws.length ≤ 16 →
    ∃ e', runOpcodes e ws = .ok e' ∧ e'.stack_pointer = e.stack_pointer + ws.length := by
  induction ws with
  | nil =>
    intro e _ _
    exact ⟨e, rfl, by simp⟩
  | cons w rest ih =>
    intro e hws hsp
    have hw := hws w (List.mem_cons_self _ _)
    have hsp' : e.stack_pointer < 16 := by
      simp only [List.length_cons] at hsp
      omega
    have hcall := execute_call_ok e w hw hsp'
    obtain ⟨e', h1, h2⟩ := ih
      { e with
          stack := e.stack.set e.stack_pointer e.program_counter
          stack_pointer := e.stack_pointer + 1
          program_counter := w % 4096 }
      (fun w' hw' => hws w' (List.mem_cons_of_mem _ hw'))
      (by simp only [List.length_cons] at hsp; simpa using by omega)
    refine ⟨e', ?_, ?_⟩
    · simp only [runOpcodes, hcall, h1]
    · rw [h2]
      simp only [List.length_cons]
      omega

/-- Running an appended instruction list is running the two halves in order. -/
theorem runOpcodes_append (e : Emulator) (l1 l2 : List Nat) :
    runOpcodes e (l1 ++ l2) =
      match runOpcodes e l1 with
      | .error p => .error p
      | .ok e' => runOpcodes e' l2 := by
  induction l1 generalizing e with
  | nil => rfl
  | cons w rest ih =>
    simp only [List.cons_append, runOpcodes]
    cases h : e.execute_opcode w with
    | error p => rfl
    | ok e1 => exact ih e1

/-- C2: starting from a fresh emulator, any 16 consecutive CALL instructions
(first nibble 2) succeed with the stack pointer equal to the number of calls
made (hence always within [0, 16]); the 17th CALL fails with the
stack-slot-16 out-of-bounds panic (the stack-overflow condition); and a RET
(0x00EE) on the fresh emulator's empty stack fails with the pointer-decrement
overflow panic (the stack-underflow condition). -/
theorem stack_overflow_underflow (ws : List Nat) (hlen : ws.length = 17)
    (hcall : ∀ w ∈ ws, w / 4096 % 16 = 2) :
    (∀ n, n ≤ 16 → ∃ e', runOpcodes Emulator.new (ws.take n) = .ok e' ∧
      e'.stack_pointer = n) ∧
    runOpcodes Emulator.new ws = .error (.stackIndexOutOfBounds 16) ∧
    Emulator.new.execute_opcode 0x00EE = .error .subOverflow := by
  have htake : ∀ n, n ≤ 16 → ∃ e', runOpcodes Emulator.new (ws.take n) = .ok e' ∧
      e'.stack_pointer = n := by
    intro n hn
    have hlen' : (ws.take n).length = n := by
      rw [List.length_take, hlen]
      omega
    have hsp0 : Emulator.new.stack_pointer = 0 := rfl
    obtain ⟨e', h1, h2⟩ := runOpcodes_calls (ws.take n) Emulator.new
      (fun w hw => hcall w (List.mem_of_mem_take hw))
      (by rw [hsp0, hlen']; omega)
    refine ⟨e', h1, ?_⟩
    rw [h2, hsp0, hlen']
    omega
  refine ⟨htake, ?_, execute_ret_underflow Emulator.new rfl⟩
  obtain ⟨e16, h16, hsp16⟩ := htake 16 (by omega)
  have hdrop : ∃ w, ws.drop 16 = [w] := by
    apply List.length_eq_one.1
    rw [List.length_drop, hlen]
  obtain ⟨w17, hw17⟩ := hdrop
  have hw17mem : w17 ∈ ws := by
    have : w17 ∈ ws.drop 16 := by rw [hw17]; exact List.mem_cons_self _ _
    exact List.mem_of_mem_drop this
  have hfail : e16.execute_opcode w17 = .error (.stackIndexOutOfBounds 16) := by
    have h := execute_call_overflow e16 w17 (hcall w17 hw17mem) (by omega)
    rw [hsp16] at h
    exact h
  calc runOpcodes Emulator.new ws
      = runOpcodes Emulator.new (ws.take 16 ++ ws.drop 16) := by rw [List.take_append_drop]
    _ = .error (.stackIndexOutOfBounds 16) := by
        rw [runOpcodes_append, h16, hw17]
        simp only [runOpcodes, hfail]

/-- C2 witness: seventeen CALLs to 0x345 from a fresh emulator die at the 17th
with the stack-overflow panic. -/
theorem stack_overflow_underflow_witness :
    runOpcodes Emulator.new (List.replicate 17 0x2345) =
      .error (.stackIndexOutOfBounds 16) :=
  (stack_overflow_underflow (List.replicate 17 0x2345) (by decide) (by decide)).2.1

/-- C7: from any state with a non-full stack (and the 16-slot stack of the
Rust type), a CALL (first nibble 2) followed by a RET (0x00EE) sets the
program counter to the call target and then restores both the program counter
(to its post-fetch value at the CALL) and the stack pointer (to its pre-CALL
value). -/
theorem call_ret_roundtrip (e : Emulator) (w : Nat) (hw : w / 4096 % 16 = 2)
    (hsp : e.stack_pointer < 16) (hlen : e.stack.length = 16) :
    ∃ e1 e2,
      e.execute_opcode w = .ok e1 ∧
      e1.program_counter = w % 4096 ∧
      e1.execute_opcode 0x00EE = .ok e2 ∧
      e2.program_counter = e.program_counter ∧
      e2.stack_pointer = e.stack_pointer := by
  have hcall := execute_call_ok e w hw hsp
  refine ⟨_, _, hcall, rfl, execute_ret_ok _ (by simp) (by simpa using hsp), ?_, by simp⟩
  show (e.stack.set e.stack_pointer e.program_counter).getD (e.stack_pointer + 1 - 1) 0 =
    e.program_counter
  rw [Nat.add_sub_cancel, List.getD_eq_getElem?_getD,
    List.getElem?_set_self (by rw [hlen]; exact hsp)]
  rfl

/-- C7 witness: CALL 0x345 from the fresh emulator (post-fetch counter 0x200)
then RET restores counter 0x200 and stack pointer 0. -/
theorem call_ret_roundtrip_witness :
    ∃ e1 e2,
      Emulator.new.execute_opcode 0x2345 = .ok e1 ∧
      e1.program_counter = 0x345 ∧
      e1.execute_opcode 0x00EE = .ok e2 ∧
      e2.program_counter = 0x200 ∧
      e2.stack_pointer = 0 :=
  call_ret_roundtrip Emulator.new 0x2345 (by decide) (by decide) (by decide)

/-- C8: ADD Vx,nn (first nibble 7) sets Vx to (Vx + nn) mod 256, changes no
other register (with the 16-register file of the Rust type), and in
particular leaves the flag register V15 unchanged whenever x is not 15;
no other emulator component changes. -/
theorem add_imm_wraps (e : Emulator) (x nn : Nat) (hx : x < 16) (hnn : nn < 256)
    (hlen : e.v_reg.length = 16) :
    e.execute_opcode (0x7000 + 256 * x + nn) =
      .ok { e with v_reg := e.v_reg.set x ((e.v_reg.getD x 0 + nn) % 256) } ∧
    (∀ j, j ≠ x →
      (e.v_reg.set x ((e.v_reg.getD x 0 + nn) % 256)).getD j 0 = e.v_reg.getD j 0) ∧
    (x ≠ 15 →
      (e.v_reg.set x ((e.v_reg.getD x 0 + nn) % 256)).getD 15 0 = e.v_reg.getD 15 0) := by
  have hd1 : (0x7000 + 256 * x + nn) / 4096 % 16 = 7 := by omega
  have hd2 : (0x7000 + 256 * x + nn) / 256 % 16 = x := by omega
  have hnn2 : (0x7000 + 256 * x + nn) % 256 = nn := by omega
  have hx' : ¬ x > 15 := by omega
  refine ⟨?_, ?_, ?_⟩
  · simp only [Emulator.execute_opcode, Emulator.get_v_reg, Emulator.set_v_reg,
      digit1_eq, digit2_eq, digit3_eq, digit4_eq, mask_fff_eq, mask_ff_eq, hd1, hd2, hnn2]
    norm_num [hx']
  · intro j hj
    simp only [List.getD_eq_getElem?_getD]
    rw [List.getElem?_set_ne (fun h => hj h.symm)]
  · intro h15
    simp only [List.getD_eq_getElem?_getD]
    rw [List.getElem?_set_ne h15]

/-- C8 witness: with V7 = 0x55, ADD V7,0x33 gives V7 = 0x88 (the spec's
example), other registers untouched. -/
theorem add_imm_wraps_witness :
    ({ Emulator.new with v_reg := Emulator.new.v_reg.set 7 0x55 } : Emulator).execute_opcode
        0x7733 =
      .ok { Emulator.new with v_reg := (Emulator.new.v_reg.set 7 0x55).set 7 0x88 } :=
  (add_imm_wraps { Emulator.new with v_reg := Emulator.new.v_reg.set 7 0x55 } 7 0x33
    (by decide) (by decide) (by decide)).1

/-- C4 counterexample: the word 0x0011 matches no dispatch pattern; executing
it does not return any result to the host — the call dies in the
`unimplemented!` panic (a process abort), so no recoverable error value is
reported and the host gets no halt/skip/NOP decision, contrary to the claim.
The panic does carry the raw word. -/
theorem unimplemented_opcode_abort_counterexample :
    Emulator.new.execute_opcode 0x0011 = .error (.unimplementedOpcode 0x0011) ∧
    (Emulator.new.execute_opcode 0x0011).isOk = false := by
  refine ⟨execute_unmatched _ _ (by decide), ?_⟩
  rw [execute_unmatched _ _ (by decide)]
  rfl

/-- C4 amended: for every 16-bit instruction word matching no pattern of the
dispatch table, execution fails with the unimplemented-opcode panic carrying
the raw instruction word — a fatal abort, not a recoverable result reported
to the host. -/
theorem unimplemented_opcode_panic (e : Emulator) (w : Nat) (hw : w < 65536)
    (hmatch : ¬ matchesDispatch w) :
    e.execute_opcode w = .error (.unimplementedOpcode w) :=
  execute_unmatched e w hmatch

/-- C4 amended witness: the panic evaluated at word 0x0011 on the fresh
emulator. -/
theorem unimplemented_opcode_panic_witness :
    Emulator.new.execute_opcode 0x0011 = .error (.unimplementedOpcode 0x0011) :=
  unimplemented_opcode_panic Emulator.new 0x0011 (by decide) (by decide)

/-- C5 counterexample: with V0 = 0xF0 and V1 = 0x20, executing 0x8014
(ADD V0,V1 in the claim) does not perform any addition — it matches no arm
and dies in the `unimplemented!` panic, so the claimed register updates never
happen. -/
theorem add_vxvy_unimplemented_counterexample :
    ({ Emulator.new with v_reg := (Emulator.new.v_reg.set 0 0xF0).set 1 0x20 } :
        Emulator).execute_opcode 0x8014 = .error (.unimplementedOpcode 0x8014) ∧
    (({ Emulator.new with v_reg := (Emulator.new.v_reg.set 0 0xF0).set 1 0x20 } :
        Emulator).execute_opcode 0x8014).isOk = false := by
  refine ⟨execute_unmatched _ _ (by decide), ?_⟩
  rw [execute_unmatched _ _ (by decide)]
  rfl

/-- C5 amended: every instruction word of the form 8,x,y,4 falls through to
the catch-all arm: execution fails with the unimplemented-opcode panic
carrying the raw word (ADD Vx,Vy is on the source's TODO list and is not
implemented), and no register is updated. -/
theorem add_vxvy_unimplemented (e : Emulator) (x y : Nat) (hx : x < 16) (hy : y < 16) :
    e.execute_opcode (0x8004 + 256 * x + 16 * y) =
      .error (.unimplementedOpcode (0x8004 + 256 * x + 16 * y)) := by
  apply execute_unmatched
  unfold matchesDispatch
  simp only [digit1_eq, digit2_eq, digit3_eq, digit4_eq, not_or]
  omega

/-- C5 amended witness: the panic evaluated at 0x8124 (x = 1, y = 2) on the
fresh emulator. -/
theorem add_vxvy_unimplemented_witness :
    Emulator.new.execute_opcode 0x8124 = .error (.unimplementedOpcode 0x8124) :=
  add_vxvy_unimplemented Emulator.new 1 2 (by decide) (by decide)

end Chip8
